import Mathlib

/-!
# Verification of the open_excel / search_excel modules

Shallow embedding of the two Python source files `open_excel.py` and
`search_excel.py` (an Ansible module pair built on openpyxl), together with
proofs about the embedded functions.

Modelling conventions:
* A workbook is a list of sheets; a sheet carries an association list from
  1-based `(row, column)` coordinates to cell data, plus the dimension
  attributes `maxRow`/`maxCol` that openpyxl reports as `max_row`/`max_column`
  (openpyxl keeps these at least 1, even for an empty sheet).
* Cell values are stored in their textual (`str`) form; an unpopulated cell
  reads back as Python's `str(None) = "None"`.
* Python exceptions are modelled with `Except String`; an `IOError` on load is
  modelled by passing `none` for the loaded workbook, and an `IOError` on save
  by a `save_ok : Bool` flag.  `wb.save(dest)` is reified as the `saved` field
  of the result (the single save call site of the source).
* `int(x)` on a raw field is modelled with a decimal parser on an
  `Option String` (a `none` field models a missing dictionary key, whose
  access raises `KeyError`).
* Text handling (`str.lower`, regex `\b`/`\w`) is modelled over ASCII, which
  is the fragment the module's documentation and examples exercise.
-/

/-- Python `dict` insertion `d[k] = v`: if the key is present its value is
replaced in place (keeping its position), otherwise the pair is appended. -/
def pyDictInsert (d : List (String × String)) (k v : String) :
    List (String × String) :=
  if (d.lookup k).isSome then
    d.map (fun p => if p.1 = k then (k, v) else p)
  else
    d ++ [(k, v)]

/-- Accumulate the decimal value of a digit run, failing on any non-digit. -/
def parseDigitsAux : List Char → Nat → Option Nat
  | [], acc => some acc
  | c :: rest, acc =>
    if c.isDigit then parseDigitsAux rest (acc * 10 + (c.toNat - '0'.toNat))
    else none

/-- A non-empty run of decimal digits, as a number. -/
def parseDigits : List Char → Option Nat
  | [] => none
  | l => parseDigitsAux l 0

/-- Python `int(s)` on the string fragment the module receives: an optional
minus sign followed by decimal digits; anything else raises `ValueError`. -/
def pyIntOfString (s : String) : Option Int :=
  match s.data with
  | '-' :: rest => (parseDigits rest).map (fun n => -(n : Int))
  | l => (parseDigits l).map (fun n => (n : Int))

/-- `int(x)` applied to an optional raw field: a missing key raises
`KeyError`, an unparsable value raises `ValueError`. -/
def pyInt (field : String) : Option String → Except String Int
  | none => Except.error ("KeyError: " ++ field)
  | some s =>
    match pyIntOfString s with
    | some n => Except.ok n
    | none => Except.error ("ValueError: invalid literal for int(): " ++ s)

/-- Python truthiness of a string-or-None value (`None` and `""` are falsy). -/
def pyTruthyStr : Option String → Bool
  | none => false
  | some s => s ≠ ""

/-- Python `str.lower()` (ASCII fragment). -/
def pyLower (s : String) : String := String.mk (s.data.map Char.toLower)

/-- Python `c in s` for a single character (the option-flag membership tests
`"i" in search_options` etc.). -/
def pyContainsChar (s : String) (c : Char) : Bool := s.data.any (fun a => a == c)

/-- openpyxl `Font` object: the four attributes the module sets.  A fresh
`Font()` has every attribute `None`. -/
structure Font where
  color : Option String := none
  bold : Option Bool := none
  italic : Option Bool := none
  underline : Option String := none
deriving DecidableEq

/-- One cell of a sheet: its value (textual form, `none` when the cell holds
Python `None`), its font and its fill (`fgColor` of the solid `PatternFill`). -/
structure CellData where
  value : Option String := none
  font : Option Font := none
  fill : Option String := none
deriving DecidableEq

/-- One worksheet: name, populated cells keyed by 1-based `(row, column)`,
and the openpyxl dimension attributes `max_row` / `max_column`. -/
structure Sheet where
  name : String
  cells : List ((Int × Int) × CellData) := []
  maxRow : Int := 1
  maxCol : Int := 1
deriving DecidableEq

/-- A workbook: its sheets in workbook order. -/
structure Workbook where
  sheets : List Sheet
deriving DecidableEq

namespace Workbook

/-- `wb.get_sheet_names()`. -/
def sheetNames (wb : Workbook) : List String := wb.sheets.map Sheet.name

/-- `wb.get_sheet_by_name(name)`, as an optional lookup (the caller decides
whether a miss is a raised `KeyError` or a crash). -/
def findSheet (wb : Workbook) (name : String) : Option Sheet :=
  wb.sheets.find? (fun sh => sh.name == name)

/-- Replace the sheet called `name` (in-place mutation of the sheet object in
the Python source). -/
def setSheet (wb : Workbook) (name : String) (sh' : Sheet) : Workbook :=
  ⟨wb.sheets.map (fun sh => if sh.name = name then sh' else sh)⟩

end Workbook

namespace Sheet

/-- The textual value `str(sheet.cell(row=r, column=c).value)` of a cell, as
openpyxl produces it: accessing a cell with a non-positive index raises
`ValueError`; an absent or empty cell yields `str(None) = "None"`. -/
def cellStr (sh : Sheet) (r c : Int) : Except String String :=
  if r < 1 ∨ c < 1 then
    Except.error "ValueError: Row or column values must be at least 1"
  else
    Except.ok ((((sh.cells.lookup (r, c)).bind CellData.value).getD "None"))

/-- Pure view of a cell's stored value (used in specifications). -/
def getValue (sh : Sheet) (r c : Int) : Option String :=
  (sh.cells.lookup (r, c)).bind CellData.value

/-- Pure view of a cell's data (used in specifications). -/
def getCell (sh : Sheet) (r c : Int) : CellData :=
  (sh.cells.lookup (r, c)).getD {}

/-- Update one cell through `f`, creating it if absent, and grow the
dimension attributes as openpyxl does when a cell is instantiated. -/
def modifyCell (sh : Sheet) (r c : Int) (f : CellData → CellData) : Sheet :=
  let cells :=
    if (sh.cells.lookup (r, c)).isSome then
      sh.cells.map (fun p => if p.1 = (r, c) then ((r, c), f p.2) else p)
    else
      sh.cells ++ [((r, c), f {})]
  { sh with cells := cells, maxRow := max sh.maxRow r, maxCol := max sh.maxCol c }

/-- `cell.value = v` (the value written in its textual form). -/
def setValue (sh : Sheet) (r c : Int) (v : String) : Sheet :=
  sh.modifyCell r c (fun cd => { cd with value := some v })

/-- `cell.font = f` (a font assignment replaces the whole font object). -/
def setFont (sh : Sheet) (r c : Int) (f : Font) : Sheet :=
  sh.modifyCell r c (fun cd => { cd with font := some f })

/-- `cell.fill = PatternFill(fgColor=bg, fill_type='solid')`. -/
def setFill (sh : Sheet) (r c : Int) (bg : Option String) : Sheet :=
  sh.modifyCell r c (fun cd => { cd with fill := bg })

/-- `sheet.insert_rows(idx=i, amount=1)`: every populated row at or below `i`
shifts down by one; the reported dimension grows accordingly. -/
def insertRows (sh : Sheet) (i : Int) : Sheet :=
  { sh with
    cells := sh.cells.map (fun p =>
      if i ≤ p.1.1 then ((p.1.1 + 1, p.1.2), p.2) else p),
    maxRow := sh.maxRow + 1 }

end Sheet

/-- `range(s, e)` over Python integers. -/
def intRange (s e : Int) : List Int :=
  (List.range (e - s).toNat).map (fun k : Nat => s + (k : Int))

/-! Part: read_xl_content (open_excel.py, lines 209-275) -/

/-- A projected row: Python `temp_dict`, built by `pyDictInsert`. -/
abbrev Record := List (String × String)

/-- The partially specified `read_range` / `search_range` dictionary; a `none`
field models a missing key (or a value whose `int()` conversion fails, for the
end bounds — both take the same `except` path in the source). -/
structure RangeDict where
  start_row : Option Int := none
  start_col : Option Int := none
  end_row : Option Int := none
  end_col : Option Int := none

/-- The `dict_keys` list of one sheet: header text (row 1) or `col_<n>`. -/
def readKeys (sh : Sheet) (index_by_name : Bool) (cols : List Int) :
    Except String (List String) :=
  cols.mapM (fun c =>
    if index_by_name then sh.cellStr 1 c
    else Except.ok ("col_" ++ toString c))

/-- One `temp_dict`: `temp_dict[dict_keys[col-start_col]] = str(cell.value)`,
with the `j`-th key paired with the `j`-th column of the range. -/
def readRecord (sh : Sheet) (keys : List String) (r : Int) (cols : List Int) :
    Except String Record := do
  let vals ← cols.mapM (fun c => sh.cellStr r c)
  Except.ok ((keys.zip vals).foldl (fun d p => pyDictInsert d p.1 p.2) [])

/-- The per-sheet loop of `read_xl_content`.  The still-unresolved end bounds
(`0` meaning "not yet defaulted") are threaded through the recursion exactly as
the Python variables `end_row`/`end_col` are: once a sheet resolves them to its
own extents they stay resolved for every later sheet. -/
def readSheets (wb : Workbook) (index_by_name : Bool) (start_row start_col : Int) :
    List String → Int → Int → Nat → Except String (List (String × List Record))
  | [], _, _, _ => Except.ok []
  | name :: rest, end_row, end_col, idx => do
    let sh ← match wb.findSheet name with
      | some sh => Except.ok sh
      | none => Except.error ("KeyError: Worksheet " ++ name ++ " does not exist.")
    let end_row := if end_row = 0 then sh.maxRow + 1 else end_row
    let end_col := if end_col = 0 then sh.maxCol + 1 else end_col
    let cols := intRange start_col end_col
    let keys ← readKeys sh index_by_name cols
    let recs ← (intRange start_row end_row).mapM (fun r => readRecord sh keys r cols)
    let restOut ← readSheets wb index_by_name start_row start_col rest end_row end_col (idx + 1)
    Except.ok (("sheet_index_" ++ toString idx, recs) :: restOut)

/-- Result of `read_xl_content`: the `(0, retval)` success pair, the
`(1, message)` pair produced by `except IOError`, or a crash — the read
function's `try` block catches *only* `IOError`, so any other exception
(e.g. a missing named sheet) propagates out of the module. -/
inductive ReadRet
  | ok (sheets : List (String × List Record))
  | ioerr (msg : String)
  | crash (msg : String)
deriving DecidableEq

/-- `read_xl_content(excel_file, index_by_name, read_range, sheet_name)`.
`wb?` is the loaded workbook (`none` models the `IOError` on load);
`sheet_name = ""` models a falsy (absent) sheet name. -/
def read_xl_content (wb? : Option Workbook) (index_by_name : Bool)
    (read_range : RangeDict) (sheet_name : String) : ReadRet :=
  let start_row := read_range.start_row.getD 1
  let start_col := read_range.start_col.getD 1
  let end_row := match read_range.end_row with
    | some v => v + 1
    | none => 0
  let end_col := match read_range.end_col with
    | some v => v + 1
    | none => 0
  match wb? with
  | none => ReadRet.ioerr "Error accessing excel file"
  | some wb =>
    let sheet_names_list := if sheet_name = "" then wb.sheetNames else [sheet_name]
    match readSheets wb index_by_name start_row start_col sheet_names_list end_row end_col 0 with
    | Except.ok out => ReadRet.ok out
    | Except.error e => ReadRet.crash e

/-! Part: search_xl_content (search_excel.py, lines 145-218) -/

/-- Word characters of the regex `\w` class (ASCII fragment). -/
def isWordChar (c : Char) : Bool := c.isAlphanum || c == '_'

/-- Whether the character at index `i` of `s` is a word character
(out-of-range counts as non-word, like the edge of the string). -/
def isWordCharAt (s : List Char) (i : Nat) : Bool :=
  (s[i]?).elim false isWordChar

/-- Whether the character left of position `i` is a word character. -/
def leftIsWord (s : List Char) : Nat → Bool
  | 0 => false
  | j + 1 => isWordCharAt s j

/-- The regex `\b` assertion at position `i` of `s`: exactly one of the two
neighbouring characters is a word character. -/
def wordBoundary (s : List Char) (i : Nat) : Bool :=
  leftIsWord s i != isWordCharAt s i

/-- Semantics of `re.search(r'\b' + re.escape(tok) + r'\b', s)`: because the
token is escaped, the pattern matches exactly when the literal token occurs at
some position with a word boundary at both ends. -/
def wholeWordScan (tok s : List Char) : Bool :=
  (List.range (s.length + 1)).any (fun i =>
    decide (i + tok.length ≤ s.length) &&
    ((s.drop i).take tok.length == tok) &&
    wordBoundary s i && wordBoundary s (i + tok.length))

/-- Python's `tok in s` substring test: the token occurs at some position. -/
def pySubstr (tok s : List Char) : Bool :=
  (List.range (s.length + 1)).any (fun i => (s.drop i).take tok.length == tok)

/-- The per-cell match of the search loop, with the option flags and the
(already case-folded) token precomputed, as in the source. -/
def cellMatch (opt_i opt_w opt_x : Bool) (token cell_val : String) : Bool :=
  let cell_val := if opt_i then pyLower cell_val else cell_val
  if opt_x then token == cell_val
  else if opt_w then wholeWordScan token.toList cell_val.toList
  else pySubstr token.toList cell_val.toList

/-- Whether a cell value matches under a raw `search_options` string: flags
are membership tests on the string, and `i` lowercases the token up front. -/
def cellMatches (search_options token cell_val : String) : Bool :=
  let opt_i := pyContainsChar search_options 'i'
  let token := if opt_i then pyLower token else token
  cellMatch opt_i (pyContainsChar search_options 'w') (pyContainsChar search_options 'x')
    token cell_val

/-- The per-sheet loop of `search_xl_content`, threading the sticky
`end_row`/`end_col` variables across sheets exactly like the read loop and
accumulating matches in scan order. -/
def searchSheets (wb : Workbook) (opt_i opt_w opt_x : Bool) (token : String)
    (start_row start_col : Int) :
    List String → Int → Int → Except String (List (Int × Int))
  | [], _, _ => Except.ok []
  | name :: rest, end_row, end_col => do
    let sh ← match wb.findSheet name with
      | some sh => Except.ok sh
      | none => Except.error ("KeyError: Worksheet " ++ name ++ " does not exist.")
    let end_row := if end_row = 0 then sh.maxRow + 1 else end_row
    let end_col := if end_col = 0 then sh.maxCol + 1 else end_col
    let here ← (intRange start_row end_row).foldlM (fun acc r =>
      (intRange start_col end_col).foldlM (fun acc c => do
        let v ← sh.cellStr r c
        if cellMatch opt_i opt_w opt_x token v then
          Except.ok (acc ++ [(r, c)])
        else
          Except.ok acc) acc) []
    let restOut ← searchSheets wb opt_i opt_w opt_x token start_row start_col rest end_row end_col
    Except.ok (here ++ restOut)

/-- Result of `search_xl_content`: `(0, {'list': ...})` or `(1, message)` —
here the broad `except Exception` turns every in-scan exception into an
error return. -/
inductive SearchRet
  | ok (found : List (Int × Int))
  | err (msg : String)
deriving DecidableEq

/-- `search_xl_content(excel_file, search_token, search_range, search_options,
sheet_name)`; `wb? = none` models the `IOError` on load. -/
def search_xl_content (wb? : Option Workbook) (search_token : String)
    (search_range : RangeDict) (search_options : String) (sheet_name : String) :
    SearchRet :=
  let opt_i := pyContainsChar search_options 'i'
  let opt_w := pyContainsChar search_options 'w'
  let opt_x := pyContainsChar search_options 'x'
  let search_token := if opt_i then pyLower search_token else search_token
  match wb? with
  | none => SearchRet.err "Error accessing excel file"
  | some wb =>
    let start_row := search_range.start_row.getD 1
    let start_col := search_range.start_col.getD 1
    let end_row := match search_range.end_row with
      | some v => v + 1
      | none => 0
    let end_col := match search_range.end_col with
      | some v => v + 1
      | none => 0
    let sheet_names_list := if sheet_name = "" then wb.sheetNames else [sheet_name]
    match searchSheets wb opt_i opt_w opt_x search_token start_row start_col
        sheet_names_list end_row end_col with
    | Except.ok ms => SearchRet.ok ms
    | Except.error e => SearchRet.err ("Invalid search parameters specified: " ++ e)

/-! Part: update_xl_content (open_excel.py, lines 281-365) -/

/-- One entry of `updates_matrix`.  The raw `cell_row`/`cell_col` fields are
optional strings (a missing key raises `KeyError` inside `int(...)`); the
value is kept in its textual form. -/
structure UpdateSpec where
  cell_row : Option String := none
  cell_col : Option String := none
  cell_value : String := ""
deriving DecidableEq

/-- The `cell_style` dictionary.  For each key, `none` means the key is
missing from the dictionary; for the colors `some none` is a present-but-None
value, and for the tri-state flags `some none` is a present value that is
neither `True` nor `False`. -/
structure CellStyleDict where
  fontColor : Option (Option String) := none
  bgColor : Option (Option String) := none
  bold : Option (Option Bool) := none
  italic : Option (Option Bool) := none
  underline : Option (Option Bool) := none
deriving DecidableEq

/-- Python truthiness of the `cell_style` argument: `None` and the empty
dictionary are falsy. -/
def pyTruthyStyle : Option CellStyleDict → Bool
  | none => false
  | some st =>
    st.fontColor.isSome || st.bgColor.isSome || st.bold.isSome ||
    st.italic.isSome || st.underline.isSome

/-- The style pass for one written cell (open_excel.py lines 314-353):
`cell_style['fontColor']` and `cell_style['bgColor']` are accessed directly
(a missing key raises `KeyError` out of the enclosing `try`), while the three
tri-state flags are each read inside their own `try/except: pass`.  The
`font_strike` object is an openpyxl `Font`, which defines no `__bool__`, so
`if font_strike:` is always true and the combined assignment always happens. -/
def applyStyleTo (sh : Sheet) (row_no col : Int) (st : CellStyleDict) :
    Except String Sheet := do
  let fc ← match st.fontColor with
    | some v => Except.ok v
    | none => Except.error "KeyError: fontColor"
  let sh := if pyTruthyStr fc then sh.setFont row_no col { color := fc } else sh
  let font_strike : Font := {}
  let font_strike := match st.bold with
    | some (some b) => { font_strike with bold := some b }
    | _ => font_strike
  let font_strike := match st.italic with
    | some (some b) => { font_strike with italic := some b }
    | _ => font_strike
  let font_strike := match st.underline with
    | some (some true) => { font_strike with underline := some "single" }
    | some (some false) => { font_strike with underline := some "none" }
    | _ => font_strike
  let sh := sh.setFont row_no col font_strike
  let bg ← match st.bgColor with
    | some v => Except.ok v
    | none => Except.error "KeyError: bgColor"
  let sh := if pyTruthyStr bg then sh.setFill row_no col bg else sh
  Except.ok sh

/-- The entry loop of `update_xl_content` (lines 306-353): in mode `w` the
row is re-read from each entry, otherwise the precomputed `row_no` is reused;
openpyxl's `cell()` raises on non-positive indices before the value write. -/
def processEntries (l_op : String) (cell_style : Option CellStyleDict) :
    Sheet → Int → List UpdateSpec → Except String Sheet
  | sh, _, [] => Except.ok sh
  | sh, row_no, cell :: rest => do
    let row_no ← if l_op = "w" then pyInt "cell_row" cell.cell_row else Except.ok row_no
    let col ← pyInt "cell_col" cell.cell_col
    if row_no < 1 ∨ col < 1 then
      Except.error "ValueError: Row or column values must be at least 1"
    else do
      let sh := sh.setValue row_no col cell.cell_value
      let sh ← match cell_style with
        | some st =>
          if pyTruthyStyle (some st) then applyStyleTo sh row_no col st
          else Except.ok sh
        | none => Except.ok sh
      processEntries l_op cell_style sh row_no rest

/-- The in-memory mutation step of `update_xl_content` (the body of the
`try` block at lines 291-353): sheet lookup, first-entry row parse, the
degrade-to-append substitution, insert/append row resolution, and the entry
loop.  Any raised exception becomes an `Except.error` (the broad
`except Exception` of the source). -/
def mutateWorkbook (wb : Workbook) (updates_matrix : List UpdateSpec)
    (cell_style : Option CellStyleDict) (sheet_name : String) (op : String) :
    Except String Workbook := do
  let sh ← match wb.findSheet sheet_name with
    | some sh => Except.ok sh
    | none => Except.error ("KeyError: Worksheet " ++ sheet_name ++ " does not exist.")
  let first ← match updates_matrix.head? with
    | some c => Except.ok c
    | none => Except.error "IndexError: list index out of range"
  let row_no ← pyInt "cell_row" first.cell_row
  let l_op := if op = "w" ∧ row_no = 0 then "a" else op
  let sh := if l_op = "i" then sh.insertRows row_no else sh
  let row_no := if l_op = "a" then sh.maxRow + 1 else row_no
  let sh' ← processEntries l_op cell_style sh row_no updates_matrix
  Except.ok (wb.setSheet sheet_name sh')

/-- `if not dest_filename: dest_filename = excel_file + '_updated.xlsx'`
(line 284-285): the suffix is appended to the *whole* source filename. -/
def resolveDest (excel_file dest_filename : String) : String :=
  if dest_filename = "" then excel_file ++ "_updated.xlsx" else dest_filename

/-- Observable outcome of `update_xl_content`: the returned status code and
the single `wb.save(filename=dest)` call, reified as the saved destination
name and workbook contents (`none` when no save happened). -/
structure UpdateOutcome where
  status : Nat
  saved : Option (String × Workbook)
deriving DecidableEq

/-- `update_xl_content(excel_file, dest_filename, updates_matrix, cell_style,
sheet_name, op)`.  `wb? = none` models the `IOError` on load and
`save_ok = false` the `IOError` on save; every mutation error returns status 1
before the save call. -/
def update_xl_content (wb? : Option Workbook) (excel_file dest_filename : String)
    (updates_matrix : List UpdateSpec) (cell_style : Option CellStyleDict)
    (sheet_name : String) (op : String) (save_ok : Bool) : UpdateOutcome :=
  let dest := resolveDest excel_file dest_filename
  match wb? with
  | none => { status := 1, saved := none }
  | some wb =>
    match mutateWorkbook wb updates_matrix cell_style sheet_name op with
    | Except.error _ => { status := 1, saved := none }
    | Except.ok wb' =>
      if save_ok then { status := 0, saved := some (dest, wb') }
      else { status := 1, saved := none }

/-! Part: Concrete fixtures used by the closed theorems -/

/-- A workbook with two sheets of different extents: sheet `A` has 2 populated
rows, sheet `B` has 5, with the token `needle` in cell `B!(5,1)`. -/
def wbTwoSheets : Workbook := ⟨[
  { name := "A", cells := [((1, 1), { value := some "a1" }), ((2, 1), { value := some "a2" })],
    maxRow := 2, maxCol := 1 },
  { name := "B", cells := [((1, 1), { value := some "b1" }), ((2, 1), { value := some "b2" }),
                           ((3, 1), { value := some "b3" }), ((4, 1), { value := some "b4" }),
                           ((5, 1), { value := some "needle" })],
    maxRow := 5, maxCol := 1 }]⟩

/-- A one-sheet workbook with a single populated cell `S!(1,1) = "a"`. -/
def wbOneCell : Workbook :=
  ⟨[{ name := "S", cells := [((1, 1), { value := some "a" })], maxRow := 1, maxCol := 1 }]⟩

/-- A single update entry targeting cell `(1,1)` with value `v`. -/
def entryV : UpdateSpec := { cell_row := some "1", cell_col := some "1", cell_value := "v" }

/-- Specification-level reading of the whole-word policy: the literal token
occurs in `s` as one block, with a regex word boundary at both of its ends. -/
def WholeWordOccurs (tok s : List Char) : Prop :=
  ∃ pre post, s = pre ++ tok ++ post ∧
    wordBoundary s pre.length = true ∧
    wordBoundary s (pre.length + tok.length) = true

/-- The parsed column of an update entry (`int(cell['cell_col'])`, when it
neither raises `KeyError` nor `ValueError`). -/
def colOf (e : UpdateSpec) : Option Int := e.cell_col.bind pyIntOfString

/-- Style dictionaries that do not abort the style pass: either no style at
all, or one carrying both directly-accessed keys `fontColor` and `bgColor`. -/
def styleSafe : Option CellStyleDict → Prop
  | none => True
  | some st => st.fontColor.isSome = true ∧ st.bgColor.isSome = true

/-- The value left in column `c` of the shared target row after a batch:
the last entry whose column parses to `c`, or the previous content `old`. -/
def lastWriteAt (entries : List UpdateSpec) (c : Int) (old : Option String) :
    Option String :=
  match (entries.filter (fun e => colOf e == some c)).getLast? with
  | some e => some e.cell_value
  | none => old

/-- What an append-resolved batch does to a sheet: rows other than
`maxRow + 1` are untouched, and each column of row `maxRow + 1` holds the
batch's last write to it (or its previous content). -/
def appendedTo (sh sh' : Sheet) (entries : List UpdateSpec) : Prop :=
  (∀ r c, r ≠ sh.maxRow + 1 → sh'.getValue r c = sh.getValue r c) ∧
  (∀ c, sh'.getValue (sh.maxRow + 1) c =
    lastWriteAt entries c (sh.getValue (sh.maxRow + 1) c))

/-- A sheet with `max_row = 10` (one populated cell), for the append tests. -/
def shTen : Sheet :=
  { name := "S", cells := [((1, 1), { value := some "x" })], maxRow := 10, maxCol := 3 }

/-- A workbook holding only `shTen`. -/
def wbTen : Workbook := ⟨[shTen]⟩

/-- An overwrite batch whose first entry has `cell_row = 0`. -/
def batchRow0 : List UpdateSpec :=
  [{ cell_row := some "0", cell_col := some "1", cell_value := "u" },
   { cell_row := some "7", cell_col := some "2", cell_value := "v" },
   { cell_row := some "9", cell_col := some "3", cell_value := "w" }]

/-- An append batch of three entries at columns 1–3. -/
def batchApp : List UpdateSpec :=
  [{ cell_row := some "1", cell_col := some "1", cell_value := "u" },
   { cell_row := some "2", cell_col := some "2", cell_value := "v" },
   { cell_row := some "3", cell_col := some "3", cell_value := "w" }]

/-- C1: range resolution is NOT independent per sheet.  Reading or searching
all sheets of `wbTwoSheets` with unspecified end bounds resolves `end_row` and
`end_col` once, from sheet `A`'s extents, and reuses them for sheet `B`:
sheet `B` (5 populated rows, `B!(5,1) = "needle"`) yields only 2 records, and
an all-sheet search for `needle` finds nothing although a search restricted to
sheet `B` finds it at `(5,1)`. -/
theorem c1_code_divergence :
    (wbTwoSheets.findSheet "B").map Sheet.maxRow = some 5 ∧
    (wbTwoSheets.findSheet "B").map (fun sh => sh.getValue 5 1) = some (some "needle") ∧
    read_xl_content (some wbTwoSheets) false {} "" = ReadRet.ok
      [("sheet_index_0", [[("col_1", "a1")], [("col_1", "a2")]]),
       ("sheet_index_1", [[("col_1", "b1")], [("col_1", "b2")]])] ∧
    search_xl_content (some wbTwoSheets) "needle" {} "" "" = SearchRet.ok [] ∧
    search_xl_content (some wbTwoSheets) "needle" {} "" "B" = SearchRet.ok [(5, 1)] := by
  refine ⟨by decide, by decide, by decide, by decide, by decide⟩

/-- C2: a `cell_style` whose `fontColor` key is absent aborts the whole
mutation: the direct `cell_style['fontColor']` access raises `KeyError`, the
broad `except` turns it into status 1, and nothing is saved — although the
same batch without a style succeeds.  (The claim says the batch's value
writes must succeed regardless of styling.) -/
theorem c2_code_divergence :
    update_xl_content (some wbOneCell) "book.xlsx" "" [entryV]
        (some { bgColor := some (some "FFFF00") }) "S" "w" true =
      { status := 1, saved := none } ∧
    (update_xl_content (some wbOneCell) "book.xlsx" "" [entryV] none "S" "w" true).status
      = 0 := by
  exact ⟨by decide, by decide⟩

/-- C3: when the style has `fontColor = "FF0000"` together with `bold = True`,
the style pass first assigns `Font(color='FF0000')` and then overwrites it
with the separately built `font_strike` object, which never carries the color:
the final font of the touched cell is `bold`-only with `color = None`, so the
font color IS lost to the later font assignment (the value write itself
succeeds). -/
theorem c3_code_divergence :
    (update_xl_content (some wbOneCell) "book.xlsx" "" [entryV]
        (some { fontColor := some (some "FF0000"), bgColor := some none,
                bold := some (some true) }) "S" "w" true).status = 0 ∧
    ((update_xl_content (some wbOneCell) "book.xlsx" "" [entryV]
        (some { fontColor := some (some "FF0000"), bgColor := some none,
                bold := some (some true) }) "S" "w" true).saved.map
      (fun p => (p.2.findSheet "S").map (fun sh => (sh.getCell 1 1).font))) =
      some (some (some { color := none, bold := some true, italic := none,
                         underline := none })) ∧
    ((update_xl_content (some wbOneCell) "book.xlsx" "" [entryV]
        (some { fontColor := some (some "FF0000"), bgColor := some none,
                bold := some (some true) }) "S" "w" true).saved.map
      (fun p => (p.2.findSheet "S").map (fun sh => sh.getValue 1 1))) =
      some (some (some "v")) := by
  exact ⟨by decide, by decide, by decide⟩

/-- C6 (counterexample): reading `wbOneCell` with `end_row = 2` — one row past
the sheet's extents — yields `"None"` (Python's `str(None)`) for the
unpopulated cell `(2,1)`, not the empty string claimed. -/
theorem c6_counterexample :
    read_xl_content (some wbOneCell) false { end_row := some 2 } "S" =
      ReadRet.ok [("sheet_index_0", [[("col_1", "a")], [("col_1", "None")]])] ∧
    ("None" : String) ≠ "" := by
  exact ⟨by decide, by decide⟩

/-- C9 (counterexample): when `dest` is absent the code appends
`'_updated.xlsx'` to the whole source filename, so `book.xlsx` becomes
`book.xlsx_updated.xlsx`, not the claimed `book_updated.xlsx`. -/
theorem c9_counterexample :
    resolveDest "book.xlsx" "" = "book.xlsx_updated.xlsx" ∧
    resolveDest "book.xlsx" "" ≠ "book_updated.xlsx" := by
  exact ⟨by decide, by decide⟩

/-- C9 (amended): with `dest` absent (falsy), the destination used by
`update_xl_content` — both as resolved and as actually saved to — is the
source filename with `'_updated.xlsx'` appended after the full name. -/
theorem c9_amended_dest_suffix (wb? : Option Workbook) (file dest : String)
    (updates : List UpdateSpec) (cs : Option CellStyleDict) (name op : String)
    (save_ok : Bool) (hdest : dest = "") :
    resolveDest file dest = file ++ "_updated.xlsx" ∧
    ∀ d wb', (update_xl_content wb? file dest updates cs name op save_ok).saved
        = some (d, wb') → d = file ++ "_updated.xlsx" := by
  subst hdest
  constructor
  · simp [resolveDest]
  · intro d wb' h
    unfold update_xl_content at h
    cases wb? with
    | none => simp at h
    | some wb =>
      simp only at h
      cases hmut : mutateWorkbook wb updates cs name op with
      | error e => rw [hmut] at h; simp at h
      | ok w => rw [hmut] at h
                cases save_ok with
                | false => simp at h
                | true => simp [resolveDest] at h; exact h.1.symm

/-- C9 (amended, witness): the amended destination rule at a concrete
successful mutation. -/
theorem c9_amended_witness :
    resolveDest "book.xlsx" "" = "book.xlsx_updated.xlsx" ∧
    ∀ d wb', (update_xl_content (some wbOneCell) "book.xlsx" "" [entryV] none "S" "w"
        true).saved = some (d, wb') → d = "book.xlsx_updated.xlsx" :=
  c9_amended_dest_suffix (some wbOneCell) "book.xlsx" "" [entryV] none "S" "w" true rfl

/-! Part: Whole-word matching: scan vs. decomposition -/

/-- A take/drop occurrence of `tok` at position `i` is the same thing as a
`pre ++ tok ++ post` decomposition with `pre.length = i`. -/
lemma take_drop_eq_iff (tok s : List Char) (i : Nat) (hi : i ≤ s.length) :
    (s.drop i).take tok.length = tok ↔
      ∃ pre post, s = pre ++ tok ++ post ∧ pre.length = i := by
  constructor
  · intro h
    refine ⟨s.take i, s.drop (i + tok.length), ?_, by simp [hi]⟩
    conv_lhs => rw [← List.take_append_drop i s]
    rw [List.append_assoc]
    congr 1
    conv_lhs => rw [← List.take_append_drop tok.length (s.drop i)]
    rw [h, List.drop_drop]
  · rintro ⟨pre, post, rfl, rfl⟩
    rw [List.append_assoc, List.drop_left, List.take_left]

/-- A decomposition occurrence fits inside the string. -/
lemma decomp_length_le (tok s pre post : List Char) (hs : s = pre ++ tok ++ post) :
    pre.length + tok.length ≤ s.length := by
  subst hs; simp [List.length_append]

/-- The scanning implementation of `re.search(r'\b'+re.escape(tok)+r'\b', s)`
finds a match exactly when the literal token occurs with word boundaries at
both ends. -/
lemma wholeWordScan_iff (tok s : List Char) :
    wholeWordScan tok s = true ↔ WholeWordOccurs tok s := by
  unfold wholeWordScan WholeWordOccurs
  rw [List.any_eq_true]
  constructor
  · rintro ⟨i, _, h⟩
    simp only [Bool.and_eq_true, decide_eq_true_eq, beq_iff_eq] at h
    obtain ⟨⟨⟨hlen, heq⟩, hb1⟩, hb2⟩ := h
    have hi : i ≤ s.length := le_trans (Nat.le_add_right _ _) hlen
    obtain ⟨pre, post, hs, hpre⟩ := (take_drop_eq_iff tok s i hi).1 heq
    exact ⟨pre, post, hs, by rwa [hpre], by rwa [hpre]⟩
  · rintro ⟨pre, post, hs, hb1, hb2⟩
    have hle := decomp_length_le tok s pre post hs
    refine ⟨pre.length, List.mem_range.2 (by omega), ?_⟩
    simp only [Bool.and_eq_true, decide_eq_true_eq, beq_iff_eq]
    exact ⟨⟨⟨hle, (take_drop_eq_iff tok s pre.length (by omega)).2
      ⟨pre, post, hs, rfl⟩⟩, hb1⟩, hb2⟩

/-- The scanning implementation of Python's `tok in s` is list-infix. -/
lemma pySubstr_iff (tok s : List Char) : pySubstr tok s = true ↔ tok <:+: s := by
  unfold pySubstr
  rw [List.any_eq_true]
  constructor
  · rintro ⟨i, hmem, h⟩
    rw [beq_iff_eq] at h
    have hi : i ≤ s.length := by
      have := List.mem_range.1 hmem; omega
    obtain ⟨pre, post, hs, _⟩ := (take_drop_eq_iff tok s i hi).1 h
    exact ⟨pre, post, by rw [hs, List.append_assoc]⟩
  · rintro ⟨pre, post, hs⟩
    have hs' : s = pre ++ tok ++ post := by rw [← hs]
    have hle := decomp_length_le tok s pre post hs'
    refine ⟨pre.length, List.mem_range.2 (by omega), ?_⟩
    rw [beq_iff_eq]
    exact (take_drop_eq_iff tok s pre.length (by omega)).2 ⟨pre, post, hs', rfl⟩

/-- C7: the per-cell match of the search loop (the test `search_xl_content`
applies to every scanned cell, with its flags and case-folded token
precomputed exactly as in the source) implements the claimed policy
composition: `x` means whole-cell equality and overrides `w`; `w` without `x`
means the token occurs as a whole word bounded by word boundaries; neither
means plain substring; and `i` lowercases both the token and the value before
any of the three comparisons. -/
theorem c7_search_match_policies (opts tok v : String) :
    (cellMatch (pyContainsChar opts 'i') (pyContainsChar opts 'w')
        (pyContainsChar opts 'x') (if pyContainsChar opts 'i' then pyLower tok else tok) v
      = cellMatches opts tok v) ∧
    (cellMatches opts tok v = true ↔
      (let prep : String → String := fun s => if pyContainsChar opts 'i' then pyLower s else s
       if pyContainsChar opts 'x' then prep tok = prep v
       else if pyContainsChar opts 'w' then
         WholeWordOccurs (prep tok).toList (prep v).toList
       else (prep tok).toList <:+: (prep v).toList)) := by
  refine ⟨rfl, ?_⟩
  cases hi : pyContainsChar opts 'i' <;> cases hx : pyContainsChar opts 'x' <;>
    cases hw : pyContainsChar opts 'w' <;>
      simp [cellMatches, cellMatch, hi, hx, hw, wholeWordScan_iff, pySubstr_iff]

/-- C10: in whole-word mode the token is matched literally — the source
escapes it with `re.escape` before building the pattern — so a cell matches
exactly when the literal token text occurs bounded by word boundaries; in
particular the metacharacter `.` in the token only matches a literal dot
(`a.b` matches inside `(a.b)` but not inside `(aqb)`, which a regex-
interpreted `.` would match). -/
theorem c10_whole_word_is_literal (tok v : String) :
    (cellMatches "w" tok v = true ↔ WholeWordOccurs tok.toList v.toList) ∧
    cellMatches "w" "a.b" "(a.b)" = true ∧
    cellMatches "w" "a.b" "(aqb)" = false := by
  have hi : pyContainsChar "w" 'i' = false := by decide
  have hw : pyContainsChar "w" 'w' = true := by decide
  have hx : pyContainsChar "w" 'x' = false := by decide
  exact ⟨by simp [cellMatches, cellMatch, hi, hw, hx, wholeWordScan_iff],
    by decide, by decide⟩

/-! Part: Batched-mutation machinery -/

/-- One step of `List.lookup`. -/
lemma lookup_cons {α β : Type} [BEq α] (k pk : α) (pv : β) (l : List (α × β)) :
    ((pk, pv) :: l).lookup k = if k == pk then some pv else l.lookup k := by
  cases h : k == pk <;> simp [List.lookup, h]

lemma lookup_map_setkey {α β : Type} [BEq α] [LawfulBEq α] [DecidableEq α]
    (l : List (α × β)) (k' : α) (g : β → β) (k : α) :
    (l.map (fun p => if p.1 = k' then (k', g p.2) else p)).lookup k =
      if k = k' then (l.lookup k').map g else l.lookup k := by
  induction l with
  | nil => by_cases hkk : k = k' <;> simp [List.lookup, hkk]
  | cons p rest ih =>
    rcases p with ⟨pk, pv⟩
    simp only [List.map_cons]
    by_cases hpk : pk = k'
    · subst hpk
      rw [if_pos rfl]
      simp only [lookup_cons]
      by_cases hkk : k = pk
      · subst hkk; simp
      · have hb : (k == pk) = false := beq_eq_false_iff_ne.2 hkk
        simp [hb, hkk, ih]
    · rw [if_neg hpk]
      simp only [lookup_cons]
      by_cases hpkk : k = pk
      · subst hpkk
        have h1 : ¬ k = k' := fun h => hpk h
        simp [h1]
      · have hb : (k == pk) = false := beq_eq_false_iff_ne.2 hpkk
        have hb2 : (k' == pk) = false := beq_eq_false_iff_ne.2 (fun h => hpk h.symm)
        simp [hb, hb2, ih]

lemma lookup_append_single {α β : Type} [BEq α] [LawfulBEq α]
    (l : List (α × β)) (k' : α) (v' : β) (k : α) :
    (l ++ [(k', v')]).lookup k =
      match l.lookup k with
      | some v => some v
      | none => if k == k' then some v' else none := by
  induction l with
  | nil =>
    rw [List.nil_append, lookup_cons]
    cases hb : k == k' <;> simp [List.lookup, hb]
  | cons p rest ih =>
    rcases p with ⟨pk, pv⟩
    rw [List.cons_append, lookup_cons, lookup_cons]
    cases hb : k == pk <;> simp [hb, ih]

lemma lookup_pyDictInsert (d : List (String × String)) (k' v' k : String) :
    (pyDictInsert d k' v').lookup k = if k = k' then some v' else d.lookup k := by
  unfold pyDictInsert
  by_cases hp : (d.lookup k').isSome = true
  · rw [if_pos hp]
    have h := lookup_map_setkey d k' (fun _ => v') k
    beta_reduce at h
    rw [h]
    obtain ⟨dv, hdv⟩ := Option.isSome_iff_exists.1 hp
    by_cases hkk : k = k' <;> simp [hkk, hdv]
  · rw [if_neg hp, lookup_append_single]
    have hnone : d.lookup k' = none := Option.not_isSome_iff_eq_none.1 hp
    by_cases hkk : k = k'
    · subst hkk; simp [hnone]
    · have hb : (k == k') = false := beq_eq_false_iff_ne.2 hkk
      cases hlk : d.lookup k <;> simp [hkk, hlk, hb]

lemma lookup_modifyCell (sh : Sheet) (r c : Int) (f : CellData → CellData)
    (r' c' : Int) :
    ((sh.modifyCell r c f).cells).lookup (r', c') =
      if (r', c') = (r, c) then some (f (sh.getCell r c))
      else sh.cells.lookup (r', c') := by
  unfold Sheet.modifyCell Sheet.getCell
  by_cases hp : (sh.cells.lookup (r, c)).isSome = true
  · simp only [if_pos hp]
    rw [lookup_map_setkey]
    obtain ⟨d, hd⟩ := Option.isSome_iff_exists.1 hp
    by_cases hkk : (r', c') = (r, c) <;> simp [hkk, hd]
  · simp only [if_neg hp]
    rw [lookup_append_single]
    have hnone : sh.cells.lookup (r, c) = none := Option.not_isSome_iff_eq_none.1 hp
    by_cases hkk : (r', c') = (r, c)
    · rw [hkk, hnone]
      simp
    · have hb : ((r', c') == (r, c)) = false := beq_eq_false_iff_ne.2 hkk
      cases hlk : sh.cells.lookup (r', c') <;> simp [hkk, hlk, hb]

lemma getValue_setValue (sh : Sheet) (r c : Int) (v : String) (r' c' : Int) :
    (sh.setValue r c v).getValue r' c' =
      if (r', c') = (r, c) then some v else sh.getValue r' c' := by
  unfold Sheet.setValue Sheet.getValue
  rw [lookup_modifyCell]
  by_cases h : (r', c') = (r, c) <;> simp [h]

lemma getValue_setFont (sh : Sheet) (r c : Int) (f : Font) (r' c' : Int) :
    (sh.setFont r c f).getValue r' c' = sh.getValue r' c' := by
  unfold Sheet.setFont Sheet.getValue
  rw [lookup_modifyCell]
  by_cases h : (r', c') = (r, c)
  · rw [if_pos h, h]
    unfold Sheet.getCell
    cases hlk : sh.cells.lookup (r, c) <;> simp [hlk]
  · rw [if_neg h]

lemma getValue_setFill (sh : Sheet) (r c : Int) (bg : Option String) (r' c' : Int) :
    (sh.setFill r c bg).getValue r' c' = sh.getValue r' c' := by
  unfold Sheet.setFill Sheet.getValue
  rw [lookup_modifyCell]
  by_cases h : (r', c') = (r, c)
  · rw [if_pos h, h]
    unfold Sheet.getCell
    cases hlk : sh.cells.lookup (r, c) <;> simp [hlk]
  · rw [if_neg h]

/-- Success of `int(...)` on an optional raw field, in `Option` form. -/
lemma pyInt_ok_iff (field : String) (o : Option String) (n : Int) :
    pyInt field o = Except.ok n ↔ o.bind pyIntOfString = some n := by
  cases o with
  | none => simp [pyInt]
  | some s => cases h : pyIntOfString s <;> simp [pyInt, h]

lemma lastWriteAt_nil (c : Int) (old : Option String) :
    lastWriteAt [] c old = old := rfl

lemma lastWriteAt_cons (e : UpdateSpec) (rest : List UpdateSpec) (c : Int)
    (old : Option String) :
    lastWriteAt (e :: rest) c old =
      lastWriteAt rest c (if colOf e = some c then some e.cell_value else old) := by
  unfold lastWriteAt
  by_cases hc : colOf e = some c
  · rw [if_pos hc, List.filter_cons_of_pos (by simp [hc])]
    cases hl : rest.filter (fun e => colOf e == some c) with
    | nil => simp [hl]
    | cons a l =>
      rw [List.getLast?_cons_cons]
      cases hgl : (a :: l).getLast? with
      | none => simp at hgl
      | some x => rfl
  · rw [if_neg hc, List.filter_cons_of_neg (by simp [hc])]

lemma applyStyleTo_ok (sh : Sheet) (r c : Int) (st : CellStyleDict)
    (hfc : st.fontColor.isSome = true) (hbg : st.bgColor.isSome = true) :
    ∃ sh', applyStyleTo sh r c st = Except.ok sh' ∧
      ∀ r' c', sh'.getValue r' c' = sh.getValue r' c' := by
  obtain ⟨fc, hfc'⟩ := Option.isSome_iff_exists.1 hfc
  obtain ⟨bg, hbg'⟩ := Option.isSome_iff_exists.1 hbg
  unfold applyStyleTo
  rw [hfc', hbg']
  refine ⟨_, rfl, ?_⟩
  intro r' c'
  by_cases h1 : pyTruthyStr fc = true <;> by_cases h2 : pyTruthyStr bg = true <;>
    simp [h1, h2, getValue_setFont, getValue_setFill]

lemma exbind_ok {α β : Type} (a : α) (f : α → Except String β) :
    (Except.ok a : Except String α) >>= f = f a := rfl

lemma processEntries_cons_eq (l_op : String) (cs : Option CellStyleDict)
    (sh : Sheet) (row : Int) (e : UpdateSpec) (rest : List UpdateSpec) :
    processEntries l_op cs sh row (e :: rest) = (do
      let row_no ← if l_op = "w" then pyInt "cell_row" e.cell_row else Except.ok row
      let col ← pyInt "cell_col" e.cell_col
      if row_no < 1 ∨ col < 1 then
        Except.error "ValueError: Row or column values must be at least 1"
      else do
        let sh := sh.setValue row_no col e.cell_value
        let sh ← match cs with
          | some st =>
            if pyTruthyStyle (some st) then applyStyleTo sh row_no col st
            else Except.ok sh
          | none => Except.ok sh
        processEntries l_op cs sh row_no rest) := rfl

lemma processEntries_a_cons (cs : Option CellStyleDict) (sh : Sheet) (row : Int)
    (e : UpdateSpec) (rest : List UpdateSpec) (ce : Int)
    (hpy : pyInt "cell_col" e.cell_col = Except.ok ce)
    (hrow : 1 ≤ row) (hce1 : 1 ≤ ce) (sh2 : Sheet)
    (hsh2 : (match cs with
      | some st =>
        if pyTruthyStyle (some st) then
          applyStyleTo (sh.setValue row ce e.cell_value) row ce st
        else Except.ok (sh.setValue row ce e.cell_value)
      | none => Except.ok (sh.setValue row ce e.cell_value)) = Except.ok sh2) :
    processEntries "a" cs sh row (e :: rest) = processEntries "a" cs sh2 row rest := by
  rw [processEntries_cons_eq]
  rw [if_neg (by decide : ¬ ("a" = "w")), exbind_ok]
  beta_reduce
  rw [hpy, exbind_ok]
  rw [if_neg (by omega : ¬ (row < 1 ∨ ce < 1))]
  cases cs with
  | none =>
    have hsh2' : sh.setValue row ce e.cell_value = sh2 := by simpa using hsh2
    simp only [exbind_ok]
    rw [hsh2']
  | some st =>
    have hsh2'' : (if pyTruthyStyle (some st) = true then
        applyStyleTo (sh.setValue row ce e.cell_value) row ce st
      else Except.ok (sh.setValue row ce e.cell_value)) = Except.ok sh2 := hsh2
    by_cases htr : pyTruthyStyle (some st) = true
    · rw [if_pos htr] at hsh2''
      simp only [htr, if_true, hsh2'', exbind_ok]
    · rw [if_neg htr] at hsh2''
      have hsh2' : sh.setValue row ce e.cell_value = sh2 := by simpa using hsh2''
      simp only [htr, if_false, exbind_ok]
      rw [hsh2']
      simp

lemma processEntries_append_ok (cs : Option CellStyleDict) (hcs : styleSafe cs) :
    ∀ (entries : List UpdateSpec) (sh : Sheet) (row : Int), 1 ≤ row →
    (∀ e ∈ entries, ∃ ce, colOf e = some ce ∧ 1 ≤ ce) →
    ∃ sh', processEntries "a" cs sh row entries = Except.ok sh' ∧
      (∀ r' c', r' ≠ row → sh'.getValue r' c' = sh.getValue r' c') ∧
      (∀ c', sh'.getValue row c' = lastWriteAt entries c' (sh.getValue row c')) := by
  intro entries
  induction entries with
  | nil =>
    intro sh row hrow hcols
    exact ⟨sh, rfl, fun _ _ _ => rfl, fun c' => by rw [lastWriteAt_nil]⟩
  | cons e rest ih =>
    intro sh row hrow hcols
    obtain ⟨ce, hce, hce1⟩ := hcols e (List.mem_cons_self e rest)
    have hpy : pyInt "cell_col" e.cell_col = Except.ok ce := by
      rw [pyInt_ok_iff]; exact hce
    -- the sheet after the value write and the style pass of this entry
    have hstyle : ∃ sh2 : Sheet, (match cs with
        | some st =>
          if pyTruthyStyle (some st) then
            applyStyleTo (sh.setValue row ce e.cell_value) row ce st
          else Except.ok (sh.setValue row ce e.cell_value)
        | none => Except.ok (sh.setValue row ce e.cell_value)) = Except.ok sh2 ∧
        ∀ r' c', sh2.getValue r' c' =
          (sh.setValue row ce e.cell_value).getValue r' c' := by
      cases cs with
      | none => exact ⟨_, rfl, fun _ _ => rfl⟩
      | some st =>
        obtain ⟨hfc, hbg⟩ := hcs
        obtain ⟨sh2, h2, hpres⟩ :=
          applyStyleTo_ok (sh.setValue row ce e.cell_value) row ce st hfc hbg
        have htr : pyTruthyStyle (some st) = true := by
          simp [pyTruthyStyle, hfc]
        refine ⟨sh2, ?_, hpres⟩
        show (if pyTruthyStyle (some st) = true then
            applyStyleTo (sh.setValue row ce e.cell_value) row ce st
          else Except.ok (sh.setValue row ce e.cell_value)) = Except.ok sh2
        rw [if_pos htr]; exact h2
    obtain ⟨sh2, hsh2, hpres⟩ := hstyle
    obtain ⟨sh', hrun, hoff, hat⟩ :=
      ih sh2 row hrow (fun e' he' => hcols e' (List.mem_cons_of_mem _ he'))
    refine ⟨sh', ?_, ?_, ?_⟩
    · rw [processEntries_a_cons cs sh row e rest ce hpy hrow hce1 sh2 hsh2]
      exact hrun
    · intro r' c' hr'
      rw [hoff r' c' hr', hpres r' c', getValue_setValue,
          if_neg (fun h => hr' (congrArg Prod.fst h))]
    · intro c'
      rw [hat c', hpres row c', getValue_setValue, lastWriteAt_cons]
      by_cases hcc : ce = c'
      · subst hcc
        rw [if_pos rfl, if_pos hce]
      · rw [if_neg (fun h => hcc ((congrArg Prod.snd h).symm)),
            if_neg (fun h => hcc (Option.some.inj (hce.symm.trans h)))]

lemma mutateWorkbook_append (wb : Workbook) (updates : List UpdateSpec)
    (cs : Option CellStyleDict) (name op : String) (sh : Sheet) (e₀ : UpdateSpec)
    (r₀ : Int)
    (hsh : wb.findSheet name = some sh)
    (h₀ : updates.head? = some e₀)
    (hr₀ : pyInt "cell_row" e₀.cell_row = Except.ok r₀)
    (hop : (if op = "w" ∧ r₀ = 0 then "a" else op) = "a")
    (hcs : styleSafe cs) (hmax : 1 ≤ sh.maxRow)
    (hcols : ∀ e ∈ updates, ∃ ce, colOf e = some ce ∧ 1 ≤ ce) :
    ∃ sh', mutateWorkbook wb updates cs name op = Except.ok (wb.setSheet name sh') ∧
      (∀ r' c', r' ≠ sh.maxRow + 1 → sh'.getValue r' c' = sh.getValue r' c') ∧
      (∀ c', sh'.getValue (sh.maxRow + 1) c' =
        lastWriteAt updates c' (sh.getValue (sh.maxRow + 1) c')) := by
  obtain ⟨sh', hrun, hoff, hat⟩ :=
    processEntries_append_ok cs hcs updates sh (sh.maxRow + 1) (by omega) hcols
  refine ⟨sh', ?_, hoff, hat⟩
  unfold mutateWorkbook
  rw [hsh, h₀]
  simp only [exbind_ok]
  rw [hr₀]
  simp only [exbind_ok, hop]
  have hi : (if ("a" : String) = "i" then sh.insertRows r₀ else sh) = sh :=
    if_neg (by decide)
  rw [hi]
  have ha : (if True then sh.maxRow + 1 else r₀) = sh.maxRow + 1 := if_pos trivial
  rw [ha, hrun, exbind_ok]

/-- `update_xl_content` on a successfully loaded workbook, with the load
match reduced (pure unfolding). -/
lemma update_xl_content_some_eq (wb : Workbook) (file dest : String)
    (updates : List UpdateSpec) (cs : Option CellStyleDict) (name op : String)
    (save_ok : Bool) :
    update_xl_content (some wb) file dest updates cs name op save_ok =
      (match mutateWorkbook wb updates cs name op with
       | Except.error _ => { status := 1, saved := none }
       | Except.ok wb' =>
         if save_ok then { status := 0, saved := some (resolveDest file dest, wb') }
         else { status := 1, saved := none }) := rfl

/-- Under overwrite mode with a first-entry row of 0, the whole mutation is
the one the code performs under append mode. -/
lemma mutateWorkbook_w0_eq_a (wb : Workbook) (updates : List UpdateSpec)
    (cs : Option CellStyleDict) (name : String) (e₀ : UpdateSpec)
    (h₀ : updates.head? = some e₀)
    (hr₀ : pyInt "cell_row" e₀.cell_row = Except.ok 0) :
    mutateWorkbook wb updates cs name "w" = mutateWorkbook wb updates cs name "a" := by
  unfold mutateWorkbook
  cases hf : wb.findSheet name with
  | none => rfl
  | some sh =>
    rw [h₀]
    simp only [exbind_ok]
    rw [hr₀, exbind_ok, exbind_ok]
    have h1 : (if True ∧ (0 : Int) = 0 then "a" else "w") = "a" :=
      if_pos ⟨trivial, rfl⟩
    have h2 : (if ("a" : String) = "w" ∧ (0 : Int) = 0 then "a" else "a") = "a" :=
      if_neg (fun h => absurd h.1 (by decide))
    rw [h1, h2]

/-- C5: under append mode, the target row is the sheet's `max_row + 1`,
computed once before the loop: every entry lands in that single row at its
own parsed column (later entries overwrite earlier ones in the same column),
every other row is untouched, and the per-entry `cell_row` values (here the
arbitrary parsed value `r₀` of the first entry, and whatever the others
carry) do not influence any write. -/
theorem c5_append_writes_one_row (wb : Workbook) (file dest name : String)
    (updates : List UpdateSpec) (cs : Option CellStyleDict) (sh : Sheet)
    (e₀ : UpdateSpec) (r₀ : Int)
    (hsh : wb.findSheet name = some sh) (hmax : 1 ≤ sh.maxRow)
    (h₀ : updates.head? = some e₀)
    (hr₀ : pyInt "cell_row" e₀.cell_row = Except.ok r₀)
    (hcols : ∀ e ∈ updates, ∃ ce, colOf e = some ce ∧ 1 ≤ ce)
    (hcs : styleSafe cs) :
    ∃ sh', update_xl_content (some wb) file dest updates cs name "a" true =
        { status := 0, saved := some (resolveDest file dest, wb.setSheet name sh') } ∧
      appendedTo sh sh' updates := by
  have hop : (if ("a" : String) = "w" ∧ r₀ = 0 then "a" else "a") = "a" :=
    if_neg (fun h => absurd h.1 (by decide))
  obtain ⟨sh', hmut, hoff, hat⟩ :=
    mutateWorkbook_append wb updates cs name "a" sh e₀ r₀ hsh h₀ hr₀ hop hcs hmax hcols
  refine ⟨sh', ?_, hoff, hat⟩
  rw [update_xl_content_some_eq, hmut]
  rfl

/-- C5 (witness): the spec's own example — a sheet with `max_row = 10` and an
append batch of three entries at columns 1–3 is written entirely into row 11. -/
theorem c5_witness :
    ∃ sh', update_xl_content (some wbTen) "book.xlsx" "" batchApp none "S" "a" true =
        { status := 0, saved := some (resolveDest "book.xlsx" "", wbTen.setSheet "S" sh') } ∧
      appendedTo shTen sh' batchApp := by
  apply c5_append_writes_one_row wbTen "book.xlsx" "" "S" batchApp none shTen
      { cell_row := some "1", cell_col := some "1", cell_value := "u" } 1
    (by decide) (by decide) rfl rfl ?_ trivial
  intro e he
  fin_cases he
  · exact ⟨1, by decide, by decide⟩
  · exact ⟨2, by decide, by decide⟩
  · exact ⟨3, by decide, by decide⟩

/-- C4: an overwrite batch whose first entry has `cell_row = 0` is processed
exactly as an append batch: the mode substitution happens once, from the
first entry alone, so the whole invocation equals the append-mode invocation;
consequently (under the usual well-formedness side conditions) every entry is
written into the single row `max_row + 1` at its own column, and row 0 — like
every row other than `max_row + 1` — is never written. -/
theorem c4_row0_batch_degrades_to_append (wb : Workbook) (file dest : String)
    (updates : List UpdateSpec) (cs : Option CellStyleDict) (name : String)
    (save_ok : Bool) (sh : Sheet) (e₀ : UpdateSpec)
    (h₀ : updates.head? = some e₀)
    (hr₀ : pyInt "cell_row" e₀.cell_row = Except.ok 0) :
    (update_xl_content (some wb) file dest updates cs name "w" save_ok =
      update_xl_content (some wb) file dest updates cs name "a" save_ok) ∧
    (wb.findSheet name = some sh → 1 ≤ sh.maxRow →
      (∀ e ∈ updates, ∃ ce, colOf e = some ce ∧ 1 ≤ ce) → styleSafe cs →
      save_ok = true →
      ∃ sh', update_xl_content (some wb) file dest updates cs name "w" save_ok =
          { status := 0, saved := some (resolveDest file dest, wb.setSheet name sh') } ∧
        appendedTo sh sh' updates ∧
        (∀ c, sh'.getValue 0 c = sh.getValue 0 c)) := by
  have heq : mutateWorkbook wb updates cs name "w" =
      mutateWorkbook wb updates cs name "a" :=
    mutateWorkbook_w0_eq_a wb updates cs name e₀ h₀ hr₀
  constructor
  · rw [update_xl_content_some_eq, update_xl_content_some_eq, heq]
  · intro hsh hmax hcols hcs hsave
    subst hsave
    have hop : (if ("w" : String) = "w" ∧ (0 : Int) = 0 then "a" else "w") = "a" :=
      if_pos ⟨rfl, rfl⟩
    obtain ⟨sh', hmut, hoff, hat⟩ :=
      mutateWorkbook_append wb updates cs name "w" sh e₀ 0 hsh h₀ hr₀ hop hcs hmax hcols
    refine ⟨sh', ?_, ⟨hoff, hat⟩, ?_⟩
    · rw [update_xl_content_some_eq, hmut]
      rfl
    · intro c
      exact hoff 0 c (by omega)

/-- C4 (witness): the degrade-to-append rule at a concrete three-entry batch
whose first entry addresses row 0, on a sheet with `max_row = 10`. -/
theorem c4_witness :
    (update_xl_content (some wbTen) "book.xlsx" "" batchRow0 none "S" "w" true =
      update_xl_content (some wbTen) "book.xlsx" "" batchRow0 none "S" "a" true) ∧
    (∃ sh', update_xl_content (some wbTen) "book.xlsx" "" batchRow0 none "S" "w" true =
        { status := 0, saved := some (resolveDest "book.xlsx" "", wbTen.setSheet "S" sh') } ∧
      appendedTo shTen sh' batchRow0 ∧
      (∀ c, sh'.getValue 0 c = shTen.getValue 0 c)) := by
  have h := c4_row0_batch_degrades_to_append wbTen "book.xlsx" "" batchRow0 none "S"
    true shTen { cell_row := some "0", cell_col := some "1", cell_value := "u" } rfl rfl
  refine ⟨h.1, h.2 (by decide) (by decide) ?_ trivial rfl⟩
  intro e he
  fin_cases he
  · exact ⟨1, by decide, by decide⟩
  · exact ⟨2, by decide, by decide⟩
  · exact ⟨3, by decide, by decide⟩

/-- C8: a failing in-memory mutation step (any `Except.error`, which is how
every sheet-lookup, parse, cell-write or style exception surfaces) produces
status 1 with no save at all; conversely anything saved is the fully mutated
workbook, saved exactly once under the resolved destination, with status 0
and a successful save flag; and a missing sheet or an empty batch always is
such a failing mutation. -/
theorem c8_mutation_failure_means_no_save (wb : Workbook) (file dest : String)
    (updates : List UpdateSpec) (cs : Option CellStyleDict) (name op : String)
    (save_ok : Bool) :
    ((∃ e, mutateWorkbook wb updates cs name op = Except.error e) →
      update_xl_content (some wb) file dest updates cs name op save_ok =
        { status := 1, saved := none }) ∧
    (∀ d wb', (update_xl_content (some wb) file dest updates cs name op save_ok).saved
        = some (d, wb') →
      mutateWorkbook wb updates cs name op = Except.ok wb' ∧
      (update_xl_content (some wb) file dest updates cs name op save_ok).status = 0 ∧
      save_ok = true ∧ d = resolveDest file dest) ∧
    (wb.findSheet name = none →
      ∃ e, mutateWorkbook wb updates cs name op = Except.error e) ∧
    (updates = [] → ∃ e, mutateWorkbook wb updates cs name op = Except.error e) := by
  refine ⟨?_, ?_, ?_, ?_⟩
  · rintro ⟨e, he⟩
    rw [update_xl_content_some_eq, he]
  · intro d wb' hsaved
    rw [update_xl_content_some_eq] at hsaved ⊢
    cases hmut : mutateWorkbook wb updates cs name op with
    | error e => rw [hmut] at hsaved; simp at hsaved
    | ok w =>
      rw [hmut] at hsaved
      cases save_ok with
      | false => simp at hsaved
      | true =>
        simp at hsaved
        obtain ⟨hd, hw⟩ := hsaved
        exact ⟨by rw [hw], rfl, rfl, hd.symm⟩
  · intro hf
    refine ⟨"KeyError: Worksheet " ++ name ++ " does not exist.", ?_⟩
    unfold mutateWorkbook
    rw [hf]
    rfl
  · rintro rfl
    cases hf : wb.findSheet name with
    | none =>
      refine ⟨"KeyError: Worksheet " ++ name ++ " does not exist.", ?_⟩
      unfold mutateWorkbook
      rw [hf]
      rfl
    | some sh =>
      refine ⟨"IndexError: list index out of range", ?_⟩
      unfold mutateWorkbook
      rw [hf]
      rfl

/-- C8 (witness): a mutation addressed at a sheet the workbook does not have
returns status 1 and saves nothing. -/
theorem c8_witness :
    update_xl_content (some wbTen) "book.xlsx" "" batchApp none "missing" "w" true =
      { status := 1, saved := none } := by
  have h := c8_mutation_failure_means_no_save wbTen "book.xlsx" "" batchApp none
    "missing" "w" true
  exact h.1 (h.2.2.1 (by decide))

/-- Monadic map with pointwise successful results. -/

lemma mapM_ok_of {α β : Type} (l : List α) (f : α → Except String β) (g : α → β)
    (h : ∀ a ∈ l, f a = Except.ok (g a)) : l.mapM f = Except.ok (l.map g) := by
  induction l with
  | nil => rw [List.mapM_nil]; rfl
  | cons a t ih =>
    rw [List.mapM_cons, h a (List.mem_cons_self a t), exbind_ok,
        ih (fun x hx => h x (List.mem_cons_of_mem a hx)), exbind_ok]
    rfl

lemma mapM_ok_length {α β : Type} (l : List α) (f : α → Except String β)
    (out : List β) (h : l.mapM f = Except.ok out) : out.length = l.length := by
  induction l generalizing out with
  | nil => rw [List.mapM_nil] at h; cases h; rfl
  | cons a t ih =>
    rw [List.mapM_cons] at h
    cases hfa : f a with
    | error e => rw [hfa] at h; exact absurd h (by simp [Bind.bind, Except.bind])
    | ok b =>
      rw [hfa, exbind_ok] at h
      cases hme : t.mapM f with
      | error e => rw [hme] at h; exact absurd h (by simp [Bind.bind, Except.bind])
      | ok bs =>
        rw [hme, exbind_ok] at h
        cases h
        simp [ih bs hme]

lemma lookup_foldl_pyDictInsert (pairs : List (String × String)) (init : Record)
    (k : String) :
    (pairs.foldl (fun d p => pyDictInsert d p.1 p.2) init).lookup k =
      match pairs.reverse.find? (fun p => p.1 == k) with
      | some p => some p.2
      | none => init.lookup k := by
  induction pairs generalizing init with
  | nil => rfl
  | cons p rest ih =>
    rw [List.foldl_cons, ih, List.reverse_cons, List.find?_append]
    cases hf : rest.reverse.find? (fun q => q.1 == k) with
    | some q => rfl
    | none =>
      rw [lookup_pyDictInsert]
      by_cases hk : k = p.1
      · have hb : (p.1 == k) = true := beq_iff_eq.2 hk.symm
        simp [List.find?, Option.or, hb, if_pos hk]
      · have hb : (p.1 == k) = false := beq_eq_false_iff_ne.2 (fun h => hk h.symm)
        simp [List.find?, Option.or, hb, if_neg hk]

lemma find?_reverse_zip (ks vs : List String) (j : Nat) (hj : j < ks.length)
    (hjv : j < vs.length) (hnd : ks.Nodup) :
    ((ks.zip vs).reverse.find? (fun p => p.1 == ks.get ⟨j, hj⟩)) =
      some (ks.get ⟨j, hj⟩, vs.get ⟨j, hjv⟩) := by
  induction ks generalizing vs j with
  | nil => exact absurd hj (by simp)
  | cons k kt ih =>
    cases vs with
    | nil => exact absurd hjv (by simp)
    | cons v vt =>
      rw [List.zip_cons_cons, List.reverse_cons, List.find?_append]
      obtain ⟨hknot, hndt⟩ := List.nodup_cons.1 hnd
      cases j with
      | zero =>
        have hnotin : (kt.zip vt).reverse.find?
            (fun p => p.1 == (k :: kt).get ⟨0, hj⟩) = none := by
          apply List.find?_eq_none.2
          intro x hx
          rcases x with ⟨x1, x2⟩
          have hx' : (x1, x2) ∈ kt.zip vt := List.mem_reverse.1 hx
          have hmem : x1 ∈ kt := (List.of_mem_zip hx').1
          exact fun hbeq => hknot ((beq_iff_eq.1 hbeq : x1 = k) ▸ hmem)
        rw [hnotin]
        simp [List.find?, Option.or]
      | succ j' =>
        have hj' : j' < kt.length := by simpa using hj
        have hjv' : j' < vt.length := by simpa using hjv
        have hkey : (k :: kt).get ⟨j' + 1, hj⟩ = kt.get ⟨j', hj'⟩ := rfl
        have hval : (v :: vt).get ⟨j' + 1, hjv⟩ = vt.get ⟨j', hjv'⟩ := rfl
        rw [hkey, hval, ih vt j' hj' hjv' hndt]
        rfl

lemma lookup_record_zip (ks vs : List String) (j : Nat) (hj : j < ks.length)
    (hjv : j < vs.length) (hnd : ks.Nodup) :
    ((ks.zip vs).foldl (fun d p => pyDictInsert d p.1 p.2) []).lookup
        (ks.get ⟨j, hj⟩) = some (vs.get ⟨j, hjv⟩) := by
  rw [lookup_foldl_pyDictInsert, find?_reverse_zip ks vs j hj hjv hnd]

lemma cellStr_ok (sh : Sheet) (r c : Int) (hr : 1 ≤ r) (hc : 1 ≤ c) :
    sh.cellStr r c = Except.ok ((sh.getValue r c).getD "None") := by
  unfold Sheet.cellStr Sheet.getValue
  rw [if_neg (by omega : ¬ (r < 1 ∨ c < 1))]

lemma readRecord_ok (sh : Sheet) (ks : List String) (r : Int) (cols : List Int)
    (hr : 1 ≤ r) (hcols : ∀ c ∈ cols, 1 ≤ c) :
    readRecord sh ks r cols = Except.ok
      ((ks.zip (cols.map (fun c => (sh.getValue r c).getD "None"))).foldl
        (fun d p => pyDictInsert d p.1 p.2) []) := by
  unfold readRecord
  rw [mapM_ok_of cols _ (fun c => (sh.getValue r c).getD "None")
    (fun c hc => cellStr_ok sh r c hr (hcols c hc)), exbind_ok]

lemma readSheets_nil (wb : Workbook) (ibn : Bool) (s_r s_c er ec : Int) (idx : Nat) :
    readSheets wb ibn s_r s_c [] er ec idx = Except.ok [] := rfl

lemma readSheets_cons_eq (wb : Workbook) (ibn : Bool) (s_r s_c : Int)
    (name : String) (rest : List String) (er ec : Int) (idx : Nat) :
    readSheets wb ibn s_r s_c (name :: rest) er ec idx = (do
      let sh ← match wb.findSheet name with
        | some sh => Except.ok sh
        | none => Except.error ("KeyError: Worksheet " ++ name ++ " does not exist.")
      let er := if er = 0 then sh.maxRow + 1 else er
      let ec := if ec = 0 then sh.maxCol + 1 else ec
      let cols := intRange s_c ec
      let keys ← readKeys sh ibn cols
      let recs ← (intRange s_r er).mapM (fun r => readRecord sh keys r cols)
      let restOut ← readSheets wb ibn s_r s_c rest er ec (idx + 1)
      Except.ok (("sheet_index_" ++ toString idx, recs) :: restOut)) := rfl

lemma intRange_one_le (s e : Int) (hs : 1 ≤ s) : ∀ x ∈ intRange s e, 1 ≤ x := by
  intro x hx
  unfold intRange at hx
  obtain ⟨k, hk, rfl⟩ := List.mem_map.1 hx
  omega

theorem c6_amended_unpopulated_none
    (wb : Workbook) (ibn : Bool) (rr : RangeDict) (name : String)
    (sh : Sheet) (er₀ ec₀ : Int) (ks : List String)
    (hname : ¬ name = "")
    (hsh : wb.findSheet name = some sh)
    (hsr : 1 ≤ rr.start_row.getD 1) (hsc : 1 ≤ rr.start_col.getD 1)
    (hrow : rr.end_row = some er₀) (hcol : rr.end_col = some ec₀)
    (her : ¬ (er₀ + 1 = 0)) (hec : ¬ (ec₀ + 1 = 0))
    (hks : readKeys sh ibn (intRange (rr.start_col.getD 1) (ec₀ + 1)) = Except.ok ks)
    (hnd : ks.Nodup) :
    ∃ recs, read_xl_content (some wb) ibn rr name =
        ReadRet.ok [("sheet_index_0", recs)] ∧
      ∀ (i j : Nat) (hi : i < (intRange (rr.start_row.getD 1) (er₀ + 1)).length)
        (hj : j < (intRange (rr.start_col.getD 1) (ec₀ + 1)).length)
        (hjk : j < ks.length),
        sh.getValue ((intRange (rr.start_row.getD 1) (er₀ + 1)).get ⟨i, hi⟩)
          ((intRange (rr.start_col.getD 1) (ec₀ + 1)).get ⟨j, hj⟩) = none →
        ∃ rec, recs.get? i = some rec ∧
          rec.lookup (ks.get ⟨j, hjk⟩) = some "None" := by
  have hread : read_xl_content (some wb) ibn rr name =
      (match readSheets wb ibn (rr.start_row.getD 1) (rr.start_col.getD 1) [name]
          (er₀ + 1) (ec₀ + 1) 0 with
       | Except.ok out => ReadRet.ok out
       | Except.error e => ReadRet.crash e) := by
    unfold read_xl_content
    rw [hrow, hcol]
    show (match readSheets wb ibn (rr.start_row.getD 1) (rr.start_col.getD 1)
        (if name = "" then wb.sheetNames else [name]) (er₀ + 1) (ec₀ + 1) 0 with
      | Except.ok out => ReadRet.ok out
      | Except.error e => ReadRet.crash e) = _
    rw [if_neg hname]
  have hrowmem := intRange_one_le (rr.start_row.getD 1) (er₀ + 1) hsr
  have hcolmem := intRange_one_le (rr.start_col.getD 1) (ec₀ + 1) hsc
  have hmapM : (intRange (rr.start_row.getD 1) (er₀ + 1)).mapM
      (fun r => readRecord sh ks r (intRange (rr.start_col.getD 1) (ec₀ + 1))) =
      Except.ok ((intRange (rr.start_row.getD 1) (er₀ + 1)).map (fun r =>
        ((ks.zip ((intRange (rr.start_col.getD 1) (ec₀ + 1)).map
            (fun c => (sh.getValue r c).getD "None"))).foldl
          (fun d p => pyDictInsert d p.1 p.2) []))) :=
    mapM_ok_of _ _ _ (fun r hr =>
      readRecord_ok sh ks r _ (hrowmem r hr) hcolmem)
  have hsheets : readSheets wb ibn (rr.start_row.getD 1) (rr.start_col.getD 1)
      [name] (er₀ + 1) (ec₀ + 1) 0 =
      Except.ok [("sheet_index_0", (intRange (rr.start_row.getD 1) (er₀ + 1)).map
        (fun r => ((ks.zip ((intRange (rr.start_col.getD 1) (ec₀ + 1)).map
            (fun c => (sh.getValue r c).getD "None"))).foldl
          (fun d p => pyDictInsert d p.1 p.2) [])))] := by
    rw [readSheets_cons_eq, hsh]
    simp only [exbind_ok]
    rw [if_neg her, if_neg hec, hks, exbind_ok, hmapM, exbind_ok, readSheets_nil,
        exbind_ok]
    rfl
  refine ⟨_, by rw [hread, hsheets], ?_⟩
  intro i j hi hj hjk hnone
  refine ⟨((ks.zip ((intRange (rr.start_col.getD 1) (ec₀ + 1)).map
      (fun c => (sh.getValue ((intRange (rr.start_row.getD 1) (er₀ + 1)).get
        ⟨i, hi⟩) c).getD "None"))).foldl
    (fun d p => pyDictInsert d p.1 p.2) []), ?_, ?_⟩
  · rw [List.get?_map, List.get?_eq_get hi]
    rfl
  · have hv : j < ((intRange (rr.start_col.getD 1) (ec₀ + 1)).map
        (fun c => (sh.getValue ((intRange (rr.start_row.getD 1) (er₀ + 1)).get
          ⟨i, hi⟩) c).getD "None")).length := by
      simpa using hj
    rw [lookup_record_zip ks _ j hjk hv hnd]
    have hval : ((intRange (rr.start_col.getD 1) (ec₀ + 1)).map
        (fun c => (sh.getValue ((intRange (rr.start_row.getD 1) (er₀ + 1)).get
          ⟨i, hi⟩) c).getD "None")).get ⟨j, hv⟩ =
        (sh.getValue ((intRange (rr.start_row.getD 1) (er₀ + 1)).get ⟨i, hi⟩)
          ((intRange (rr.start_col.getD 1) (ec₀ + 1)).get ⟨j, hj⟩)).getD "None" := by
      simp [List.get_map]
    rw [hval, hnone]
    rfl

/-- C6 (amended, witness): reading `wbOneCell` one row past its extents — the
unpopulated cell `(2,1)` projects to the string `"None"` in its record. -/
theorem c6_amended_witness :
    ∃ recs, read_xl_content (some wbOneCell) false
        { end_row := some 2, end_col := some 1 } "S" =
        ReadRet.ok [("sheet_index_0", recs)] ∧
      ∀ (i j : Nat) (hi : i < (intRange 1 (2 + 1)).length)
        (hj : j < (intRange 1 (1 + 1)).length) (hjk : j < ["col_1"].length),
        Sheet.getValue ⟨"S", [((1, 1), { value := some "a" })], 1, 1⟩
          ((intRange 1 (2 + 1)).get ⟨i, hi⟩)
          ((intRange 1 (1 + 1)).get ⟨j, hj⟩) = none →
        ∃ rec, recs.get? i = some rec ∧
          rec.lookup (["col_1"].get ⟨j, hjk⟩) = some "None" :=
  c6_amended_unpopulated_none wbOneCell false { end_row := some 2, end_col := some 1 }
    "S" ⟨"S", [((1, 1), { value := some "a" })], 1, 1⟩ 2 1 ["col_1"]
    (by decide) (by decide) (by decide) (by decide) rfl rfl (by decide) (by decide)
    rfl (by decide)
